import Mathlib

/-!
# Verification of the `rt` terminal emulator core

Shallow embedding of the repository's grid / scrollback / ANSI-dispatch /
PTY-session code, together with theorems settling the specification claims.

The repository contains two prototype snapshots of the terminal state engine:

* `src/terminal.rs` — a concrete `Terminal` with `buffer`, `cursor_x/y`,
  `history`; embedded below in namespace `RT`.
* `src/ansi.rs` — a `vte::Perform` implementation written against a richer
  `Terminal` (fields `grid`, `cursor`, `state`, `current_fg`, `current_bg`,
  `current_attrs`, `tabs`, ...) whose struct declaration is absent from the
  sources; its dispatch logic is embedded below in namespace `Ansi`, with the
  missing state container modelled from the spec.

Machine integers: the Rust code uses `usize` coordinates; all arithmetic on
them in the embedded fragments is small and overflow-free, so they are
modelled as `Nat` (where the Rust code uses `saturating_sub`, `Nat`
subtraction has exactly that semantics).
-/

namespace RT

/-- `Color(pub u8, pub u8, pub u8, pub u8)` from `src/terminal.rs`. -/
structure Color where
  r : Nat
  g : Nat
  b : Nat
  a : Nat
deriving DecidableEq

/-- `impl Default for Color`: opaque white `(255,255,255,255)`. -/
def Color.default : Color := ⟨255, 255, 255, 255⟩

/-- `TerminalCell` from `src/terminal.rs`. -/
structure TerminalCell where
  character : Char
  foreground_color : Color
  background_color : Color
  bold : Bool
  italic : Bool
  underline : Bool
deriving DecidableEq

/-- `impl Default for TerminalCell`: blank character, white on black, no
style flags. -/
def TerminalCell.default : TerminalCell :=
  { character := ' '
    foreground_color := Color.default
    background_color := ⟨0, 0, 0, 255⟩
    bold := false
    italic := false
    underline := false }

/-- The `Terminal` struct from `src/terminal.rs`.  The fields `scroll_state`
(f32 animation state), `memory_usage`, `frame_time`, `fps_counter` and
`last_fps_time` (wall-clock and floating-point bookkeeping, unused by the
grid operations verified here) are omitted. -/
structure Terminal where
  buffer : List (List TerminalCell)
  width : Nat
  height : Nat
  cursor_x : Nat
  cursor_y : Nat
  history : List (List TerminalCell)
deriving DecidableEq

/-- The row-construction loop in `Terminal::with_size` (and in `scroll_up` /
`resize`): `for _ in 0..width { row.push(TerminalCell::default()) }`. -/
def mkRow (width : Nat) : List TerminalCell :=
  (List.range width).foldl (fun row _ => row ++ [TerminalCell.default]) []

/-- The buffer-construction loop in `Terminal::with_size`. -/
def mkBuffer (width height : Nat) : List (List TerminalCell) :=
  (List.range height).foldl (fun buf _ => buf ++ [mkRow width]) []

/-- `Terminal::with_size(width, height)` from `src/terminal.rs`. -/
def Terminal.with_size (width height : Nat) : Terminal :=
  { buffer := mkBuffer width height
    width := width
    height := height
    cursor_x := 0
    cursor_y := 0
    history := [] }

/-- `Terminal::new()`: `Self::with_size(80, 24)`. -/
def Terminal.new : Terminal := Terminal.with_size 80 24

/-- In-place cell assignment `self.buffer[y][x] = cell` (leaves the buffer
unchanged when an index is out of range; the Rust indexing would panic there,
and every call site below is guarded in bounds). -/
def setCell (buf : List (List TerminalCell)) (x y : Nat) (c : TerminalCell) :
    List (List TerminalCell) :=
  buf.set y ((buf.getD y []).set x c)

/-- `Terminal::get_color_for_char(&self, c)` from `src/terminal.rs`.  The
Rust method takes `&self` but never reads it; the parameter is kept so that
independence from the terminal state is expressible. -/
def Terminal.get_color_for_char (_t : Terminal) (c : Char) : Color :=
  if c = '=' ∨ c = '!' ∨ c = '&' ∨ c = '|' ∨ c = '<' ∨ c = '>' then
    ⟨100, 200, 255, 255⟩  -- Blue for operators
  else if '0' ≤ c ∧ c ≤ '9' then
    ⟨255, 200, 100, 255⟩  -- Orange for numbers
  else if ('A' ≤ c ∧ c ≤ 'Z') ∨ ('a' ≤ c ∧ c ≤ 'z') then
    ⟨200, 255, 200, 255⟩  -- Green for letters
  else
    Color.default

/-- `Terminal::scroll_up` from `src/terminal.rs`: push the first row into
`history`, remove it from the buffer, append a fresh default row. -/
def Terminal.scroll_up (t : Terminal) : Terminal :=
  let history :=
    match t.buffer.head? with
    | some first_line => t.history ++ [first_line]
    | none => t.history
  { t with
    history := history
    buffer := t.buffer.drop 1 ++ [mkRow t.width] }

/-- The catch-all printable arm of `Terminal::write_char` (`c => { ... }`). -/
def Terminal.write_printable (t : Terminal) (c : Char) : Terminal :=
  if t.cursor_x < t.width ∧ t.cursor_y < t.height then
    let color := t.get_color_for_char c
    let cell : TerminalCell :=
      { TerminalCell.default with character := c, foreground_color := color }
    let t1 := { t with
      buffer := setCell t.buffer t.cursor_x t.cursor_y cell
      cursor_x := t.cursor_x + 1 }
    if t1.width ≤ t1.cursor_x then
      let t2 := { t1 with cursor_x := 0, cursor_y := t1.cursor_y + 1 }
      if t2.height ≤ t2.cursor_y then
        { t2.scroll_up with cursor_y := t2.height - 1 }
      else t2
    else t1
  else t

/-- `Terminal::write_char` from `src/terminal.rs`.  The `'\t'` arm iterates
`write_char(' ')` over the range `cursor_x..next_tab.min(width)` whose bounds
are fixed at loop entry; a space always takes the printable arm, so the
iteration is `write_printable ' '` repeated that many times. -/
def Terminal.write_char (t : Terminal) (c : Char) : Terminal :=
  if c = '\n' then
    let t1 := { t with cursor_y := t.cursor_y + 1, cursor_x := 0 }
    if t1.height ≤ t1.cursor_y then
      { t1.scroll_up with cursor_y := t1.height - 1 }
    else t1
  else if c = '\r' then
    { t with cursor_x := 0 }
  else if c = '\t' then
    let next_tab := (t.cursor_x / 8 + 1) * 8
    let count := min next_tab t.width - t.cursor_x
    Nat.iterate (fun s => s.write_printable ' ') count t
  else if c = '\x08' then
    if 0 < t.cursor_x then
      { t with
        cursor_x := t.cursor_x - 1
        buffer := setCell t.buffer (t.cursor_x - 1) t.cursor_y TerminalCell.default }
    else t
  else
    t.write_printable c

/-- `Terminal::write_text`: `for ch in text.chars() { self.write_char(ch) }`. -/
def Terminal.write_text (t : Terminal) (s : String) : Terminal :=
  s.toList.foldl Terminal.write_char t

/-- `Terminal::clear` from `src/terminal.rs`. -/
def Terminal.clear (t : Terminal) : Terminal :=
  { t with
    buffer := t.buffer.map (fun row => row.map (fun _ => TerminalCell.default))
    cursor_x := 0
    cursor_y := 0 }

/-- `Vec::resize(new_width, TerminalCell::default())` on one row. -/
def rowResize (row : List TerminalCell) (n : Nat) : List TerminalCell :=
  if row.length < n then row ++ List.replicate (n - row.length) TerminalCell.default
  else row.take n

/-- `Terminal::resize` from `src/terminal.rs`: explicit no-op guard on zero
dimensions, per-row width resize, row append / truncate for the height, and
cursor clamping with `saturating_sub`. -/
def Terminal.resize (t : Terminal) (new_width new_height : Nat) : Terminal :=
  if new_width = 0 ∨ new_height = 0 then t
  else if new_width ≠ t.width ∨ new_height ≠ t.height then
    let old_width := t.width
    let old_height := t.height
    let buffer1 :=
      if new_width ≠ old_width then t.buffer.map (fun row => rowResize row new_width)
      else t.buffer
    let buffer2 :=
      if old_height < new_height then
        buffer1 ++ List.replicate (new_height - old_height) (mkRow new_width)
      else if new_height < old_height then buffer1.take new_height
      else buffer1
    { t with
      width := new_width
      height := new_height
      buffer := buffer2
      cursor_x := min t.cursor_x (new_width - 1)
      cursor_y := min t.cursor_y (new_height - 1) }
  else t

/-- `Terminal::get_cell_at`: `self.buffer.get(y)?.get(x)`. -/
def Terminal.get_cell_at (t : Terminal) (x y : Nat) : Option TerminalCell :=
  (t.buffer[y]?).bind (fun row => row[x]?)

/-- `Terminal::set_cell_at`: writes the cell and returns `true` when both
indices are in range, otherwise returns `false` leaving the state unchanged.
The Rust method mutates and returns `bool`; here it returns the new state
paired with that boolean. -/
def Terminal.set_cell_at (t : Terminal) (x y : Nat) (c : TerminalCell) :
    Terminal × Bool :=
  match t.buffer[y]? with
  | some row =>
    match row[x]? with
    | some _ => ({ t with buffer := t.buffer.set y (row.set x c) }, true)
    | none => (t, false)
  | none => (t, false)

/-- `Terminal::get_history_size`. -/
def Terminal.get_history_size (t : Terminal) : Nat := t.history.length

/-- `Terminal::get_line_from_history`. -/
def Terminal.get_line_from_history (t : Terminal) (i : Nat) :
    Option (List TerminalCell) := t.history[i]?

/-- `MAX_HISTORY_LINES` from `Terminal::optimize_memory`. -/
def MAX_HISTORY_LINES : Nat := 1000

/-- The history-trimming body of `Terminal::optimize_memory` from
`src/terminal.rs`: `self.history.drain(0..excess)` removes the oldest
`len - MAX_HISTORY_LINES` rows.  (The `calculate_memory_usage` bookkeeping it
ends with touches only the omitted `memory_usage` field.) -/
def Terminal.optimize_memory (t : Terminal) : Terminal :=
  if MAX_HISTORY_LINES < t.history.length then
    { t with history := t.history.drop (t.history.length - MAX_HISTORY_LINES) }
  else t

/-- The spec's grid invariant: the buffer has exactly `height` rows, each of
exactly `width` cells, and both current dimensions are at least 1. -/
def GridInv (t : Terminal) : Prop :=
  t.buffer.length = t.height ∧
  (∀ row ∈ t.buffer, row.length = t.width) ∧
  1 ≤ t.width ∧ 1 ≤ t.height

instance (t : Terminal) : Decidable (GridInv t) := by
  unfold GridInv; infer_instance

/-- The public operations of `Terminal` considered in the grid-shape claim. -/
inductive TermOp where
  | writeChar (c : Char)
  | writeText (s : String)
  | clear
  | resize (w h : Nat)
  | setCellAt (x y : Nat) (cell : TerminalCell)
  | scroll

/-- Applying one operation to a terminal. -/
def applyOp (t : Terminal) : TermOp → Terminal
  | .writeChar c => t.write_char c
  | .writeText s => t.write_text s
  | .clear => t.clear
  | .resize w h => t.resize w h
  | .setCellAt x y c => (t.set_cell_at x y c).1
  | .scroll => t.scroll_up

/-- Applying a sequence of operations, oldest first. -/
def applyOps (t : Terminal) (ops : List TermOp) : Terminal :=
  ops.foldl applyOp t

end RT

namespace Ansi

/-!
## The `src/ansi.rs` state engine

`src/ansi.rs` implements `vte::Perform` for a `Terminal` whose struct
declaration is not among the repository's sources (the `Terminal` of
`src/terminal.rs` has none of the fields it uses).  The state containers
below are therefore modelled from the spec (§3 data model), restricted to
the fields the embedded dispatch code reads or writes; the operations
themselves are translated from `src/ansi.rs`.
-/

/-- Modelled from the spec: the attribute set (`self.current_attrs`) with
the independent boolean style flags of §3. -/
structure Attrs where
  bold : Bool
  italic : Bool
  underline : Bool
  strikethrough : Bool
  reverse : Bool
  blink : Bool
  dim : Bool
deriving DecidableEq

/-- All-off attribute set (`Default::default()`). -/
def Attrs.default : Attrs := ⟨false, false, false, false, false, false, false⟩

/-- Modelled from the spec: the `Cell` used by `src/ansi.rs` — character,
foreground, background and the seven style flags of §3; the field names are
the ones `Perform::print` assigns. -/
structure Cell where
  character : Char
  fg_color : RT.Color
  bg_color : RT.Color
  bold : Bool
  italic : Bool
  underline : Bool
  strikethrough : Bool
  reverse : Bool
  blink : Bool
  dim : Bool
deriving DecidableEq

/-- Default cell: blank, white on black, no flags. -/
def Cell.default : Cell :=
  ⟨' ', RT.Color.default, ⟨0, 0, 0, 255⟩,
   false, false, false, false, false, false, false⟩

/-- Modelled from the spec: cursor position (§3). -/
structure Cursor where
  x : Nat
  y : Nat
deriving DecidableEq

/-- Modelled from the spec: the mode/scroll-region container
(`self.state`); only the fields the embedded arms touch are included
(`saved_cursor`, `insert_mode`, `application_cursor` omitted — unused by
the arms embedded here). -/
structure State where
  wraparound : Bool
  origin_mode : Bool
  newline_mode : Bool
  active_charset : Nat
  scroll_top : Nat
  scroll_bottom : Nat
deriving DecidableEq

/-- Modelled from the spec: the terminal state container `src/ansi.rs` is
written against (grid, cursor, modes, tab stops, scrollback, current colors
and attributes — §3), restricted to the fields the embedded code uses. -/
structure Terminal where
  grid : List (List Cell)
  width : Nat
  height : Nat
  cursor : Cursor
  state : State
  tabs : List Nat
  history : List (List Cell)
  current_fg : RT.Color
  current_bg : RT.Color
  current_attrs : Attrs
deriving DecidableEq

/-- Modelled from the spec: one step of `scroll_up` (§4.2) — called by
`src/ansi.rs` but not defined among the sources.  Rows of the scroll region
`[top, bottom]` shift up by one, a blank row enters at the bottom edge, and
the evicted row goes to scrollback history only when the region is the full
screen. -/
def Terminal.scroll_up_one (t : Terminal) : Terminal :=
  let top := t.state.scroll_top
  let bot := t.state.scroll_bottom
  let history :=
    if top = 0 ∧ bot + 1 = t.height then
      match t.grid.head? with
      | some r => t.history ++ [r]
      | none => t.history
    else t.history
  let region := (t.grid.drop (top + 1)).take (bot - top) ++
    [List.replicate t.width Cell.default]
  { t with
    history := history
    grid := t.grid.take top ++ region ++ t.grid.drop (bot + 1) }

/-- `scroll_up(n)`: `n` single steps. -/
def Terminal.scroll_up (t : Terminal) (n : Nat) : Terminal :=
  Nat.iterate Terminal.scroll_up_one n t

/-- The `if let Some(cell) = self.get_cell_mut(x, y) { ... }` pattern of
`Perform::print`: apply the field updates when (x, y) is in range, else do
nothing.  (`get_cell_mut` itself is not among the sources; modelled from the
spec's cell lookup, absent if out of range.) -/
def updateCell (g : List (List Cell)) (x y : Nat) (f : Cell → Cell) :
    List (List Cell) :=
  match g[y]? with
  | some row =>
    match row[x]? with
    | some cell => g.set y (row.set x (f cell))
    | none => g
  | none => g

/-- Cell lookup by coordinates (the spec's read surface: absent if out of
range). -/
def Terminal.get_cell (t : Terminal) (x y : Nat) : Option Cell :=
  (t.grid[y]?).bind fun row => row[x]?

/-- Display width of a printed character.  `Perform::print` calls the
external `unicode_width` crate (`width(c).unwrap_or(1)`), which is not part
of this repository; printable ASCII — all the claims exercise — has width 1,
so the model fixes width 1. -/
def charWidth (_c : Char) : Nat := 1

/-- `Perform::print` from `src/ansi.rs`: NUL is dropped; the cursor wraps
(scrolling at the bottom margin) or clamps per the wraparound mode when the
character does not fit; the cell is written with the current colors —
swapped if the reverse attribute is active — and all current attribute
flags, reverse included; the cursor advances by the character width. -/
def Terminal.print (t : Terminal) (c : Char) : Terminal :=
  if c = '\x00' then t
  else
    let char_width := charWidth c
    let t1 :=
      if t.width < t.cursor.x + char_width then
        if t.state.wraparound then
          let ta := { t with cursor := { t.cursor with x := 0 } }
          if ta.cursor.y = ta.state.scroll_bottom then ta.scroll_up 1
          else { ta with cursor := { ta.cursor with y := ta.cursor.y + 1 } }
        else { t with cursor := { t.cursor with x := t.width - char_width } }
      else t
    let fg_color := if t1.current_attrs.reverse then t1.current_bg else t1.current_fg
    let bg_color := if t1.current_attrs.reverse then t1.current_fg else t1.current_bg
    let attrs := t1.current_attrs
    let grid := updateCell t1.grid t1.cursor.x t1.cursor.y (fun cell =>
      { cell with
        character := c
        fg_color := fg_color
        bg_color := bg_color
        bold := attrs.bold
        italic := attrs.italic
        underline := attrs.underline
        strikethrough := attrs.strikethrough
        reverse := attrs.reverse
        blink := attrs.blink
        dim := attrs.dim })
    { t1 with
      grid := grid
      cursor := { t1.cursor with x := t1.cursor.x + char_width } }

/-- `Perform::execute` from `src/ansi.rs`: BEL logs only; BS moves the
cursor left with floor 0; HT advances to the next tab stop or the last
column; LF/VT/FF advance the row, scrolling at the region bottom (LF also
resets the column in newline mode); CR resets the column; SO/SI switch the
active charset; everything else is logged and ignored. -/
def Terminal.execute (t : Terminal) (byte : Nat) : Terminal :=
  if byte = 0x07 then t
  else if byte = 0x08 then
    if 0 < t.cursor.x then { t with cursor := { t.cursor with x := t.cursor.x - 1 } }
    else t
  else if byte = 0x09 then
    match t.tabs.find? (fun tab => decide (t.cursor.x < tab)) with
    | some next_tab =>
      { t with cursor := { t.cursor with x := min next_tab (t.width - 1) } }
    | none => { t with cursor := { t.cursor with x := t.width - 1 } }
  else if byte = 0x0A then
    let t1 :=
      if t.cursor.y = t.state.scroll_bottom then t.scroll_up 1
      else { t with cursor := { t.cursor with y := t.cursor.y + 1 } }
    if t1.state.newline_mode then { t1 with cursor := { t1.cursor with x := 0 } }
    else t1
  else if byte = 0x0B ∨ byte = 0x0C then
    if t.cursor.y = t.state.scroll_bottom then t.scroll_up 1
    else { t with cursor := { t.cursor with y := t.cursor.y + 1 } }
  else if byte = 0x0D then
    { t with cursor := { t.cursor with x := 0 } }
  else if byte = 0x0E then
    { t with state := { t.state with active_charset := 1 } }
  else if byte = 0x0F then
    { t with state := { t.state with active_charset := 0 } }
  else t

/-- `params.iter().nth(i).and_then(|p| p.first()).copied().unwrap_or(d)`:
the i-th parameter group's first value, with default `d`. -/
def paramAt (params : List (List Nat)) (i d : Nat) : Nat :=
  match params[i]? with
  | some g => g.headD d
  | none => d

/-- The `'r'` (DECSTBM — set top and bottom margins) arm of
`Perform::csi_dispatch` from `src/ansi.rs`: clamp the 1-based margins into
the grid, reset to the full screen when top ≥ bottom, then home the cursor
(row `scroll_top` under origin mode, row 0 otherwise; column 0). -/
def Terminal.csi_dispatch_r (t : Terminal) (params : List (List Nat)) :
    Terminal :=
  let top := paramAt params 0 1
  let bottom := paramAt params 1 t.height
  let st := min (top - 1) (t.height - 1)
  let sb := min (bottom - 1) (t.height - 1)
  let st2 := if sb ≤ st then 0 else st
  let sb2 := if sb ≤ st then t.height - 1 else sb
  let cy := if t.state.origin_mode then st2 else 0
  { t with
    state := { t.state with scroll_top := st2, scroll_bottom := sb2 }
    cursor := { x := 0, y := cy } }

/-- A small concrete ANSI terminal state, used as a witness input: 4×3
default grid, cursor at the origin, full-screen scroll region, default
colors and attributes. -/
def sampleTerminal : Terminal :=
  { grid := List.replicate 3 (List.replicate 4 Cell.default)
    width := 4
    height := 3
    cursor := ⟨0, 0⟩
    state :=
      { wraparound := true
        origin_mode := false
        newline_mode := false
        active_charset := 0
        scroll_top := 0
        scroll_bottom := 2 }
    tabs := [8, 16]
    history := []
    current_fg := RT.Color.default
    current_bg := ⟨0, 0, 0, 255⟩
    current_attrs := Attrs.default }

end Ansi

namespace Pty

/-!
## The `src/pty.rs` session manager

Only the pieces the claims are about are embedded: the input-writing path of
`PtySession::start_io_threads`, the liveness check `PtySession::is_alive`,
and `PtyManager::cleanup_dead_sessions`.  The OS-level handles themselves
(master pty, child process) live outside the program text and are not
modelled; a session is reduced to the data these functions inspect.
-/

/-- The input-draining thread body of `PtySession::start_io_threads`
(`src/pty.rs`): each chunk received from the input queue is only logged
("Input received but not yet implemented" — the `TODO: Write data to PTY`
branch).  This function returns the chunks actually written to the PTY
master handle while draining `queued`: the accumulator is never extended. -/
def inputThreadWrites (queued : List (List Nat)) : List (List Nat) :=
  queued.foldl (fun written _chunk => written) []

/-- A registered session, reduced to the data the liveness claims need: its
registry id and whether its child process has actually exited. -/
structure Session where
  id : Nat
  childExited : Bool
deriving DecidableEq

/-- `PtySession::is_alive` from `src/pty.rs`: "Simplified - always return
true for now" — the child's exit status is never consulted. -/
def Session.is_alive (_s : Session) : Bool := true

/-- `PtyManager::cleanup_dead_sessions` from `src/pty.rs`: collect the ids
of sessions with `!session.is_alive()` and remove them from the registry
(expressed on the registry's session list as a filter). -/
def cleanup_dead_sessions (sessions : List Session) : List Session :=
  sessions.filter (fun s => s.is_alive)

end Pty

namespace RT

/-! ## Basic lemmas about the construction loops -/

theorem foldl_push_eq_append {α : Type} (x : α) :
    ∀ (l : List Nat) (init : List α),
      l.foldl (fun r _ => r ++ [x]) init = init ++ List.replicate l.length x := by
  intro l
  induction l with
  | nil => intro init; simp
  | cons hd tl ih =>
    intro init
    simp only [List.foldl_cons, List.length_cons, List.replicate_succ]
    rw [ih]
    simp

theorem mkRow_eq_replicate (w : Nat) :
    mkRow w = List.replicate w TerminalCell.default := by
  unfold mkRow
  rw [foldl_push_eq_append]
  simp

theorem mkBuffer_eq_replicate (w h : Nat) :
    mkBuffer w h = List.replicate h (mkRow w) := by
  unfold mkBuffer
  rw [foldl_push_eq_append]
  simp

theorem mkRow_length (w : Nat) : (mkRow w).length = w := by
  rw [mkRow_eq_replicate]; simp

/-! ## The grid-shape invariant and its preservation -/

theorem setCell_shape {buf : List (List TerminalCell)} {w : Nat}
    (hrows : ∀ row ∈ buf, row.length = w) (x y : Nat) (c : TerminalCell) :
    (setCell buf x y c).length = buf.length ∧
    (∀ row ∈ setCell buf x y c, row.length = w) := by
  refine ⟨by simp [setCell], ?_⟩
  intro row hrow
  by_cases hy : y < buf.length
  · rcases List.mem_or_eq_of_mem_set hrow with h1 | h1
    · exact hrows _ h1
    · subst h1
      rw [List.length_set, List.getD_eq_getElem?_getD, List.getElem?_eq_getElem hy]
      exact hrows _ (List.getElem_mem hy)
  · rw [setCell, List.set_eq_of_length_le (Nat.le_of_not_lt hy)] at hrow
    exact hrows _ hrow

theorem scroll_up_shape {t : Terminal} (h : GridInv t) : GridInv t.scroll_up := by
  obtain ⟨hlen, hrows, hw, hh⟩ := h
  refine ⟨?_, ?_, hw, hh⟩
  · simp only [Terminal.scroll_up, List.length_append, List.length_drop,
      List.length_cons, List.length_nil]
    omega
  · intro row hrow
    simp only [Terminal.scroll_up, List.mem_append, List.mem_singleton] at hrow
    rcases hrow with h1 | h1
    · exact hrows _ (List.mem_of_mem_drop h1)
    · rw [h1]; exact mkRow_length t.width

theorem write_printable_shape {t : Terminal} (h : GridInv t) (c : Char) :
    GridInv (t.write_printable c) := by
  obtain ⟨hlen, hrows, hw, hh⟩ := h
  unfold Terminal.write_printable
  dsimp only
  split
  · split
    · split
      · exact scroll_up_shape ⟨by simpa [(setCell_shape hrows _ _ _).1],
          fun row hrow => (setCell_shape hrows t.cursor_x t.cursor_y _).2 row hrow, hw, hh⟩
      · exact ⟨by simpa [(setCell_shape hrows _ _ _).1],
          fun row hrow => (setCell_shape hrows t.cursor_x t.cursor_y _).2 row hrow, hw, hh⟩
    · exact ⟨by simpa [(setCell_shape hrows _ _ _).1],
        fun row hrow => (setCell_shape hrows t.cursor_x t.cursor_y _).2 row hrow, hw, hh⟩
  · exact ⟨hlen, hrows, hw, hh⟩

theorem iterate_write_printable_shape (n : Nat) :
    ∀ t : Terminal, GridInv t →
      GridInv (Nat.iterate (fun s => s.write_printable ' ') n t) := by
  induction n with
  | zero => intro t h; exact h
  | succ n ih =>
    intro t h
    rw [Function.iterate_succ_apply]
    exact ih _ (write_printable_shape h ' ')

theorem write_char_shape {t : Terminal} (h : GridInv t) (c : Char) :
    GridInv (t.write_char c) := by
  obtain ⟨hlen, hrows, hw, hh⟩ := h
  unfold Terminal.write_char
  dsimp only
  split
  · split
    · exact scroll_up_shape ⟨hlen, hrows, hw, hh⟩
    · exact ⟨hlen, hrows, hw, hh⟩
  · split
    · exact ⟨hlen, hrows, hw, hh⟩
    · split
      · exact iterate_write_printable_shape _ t ⟨hlen, hrows, hw, hh⟩
      · split
        · split
          · exact ⟨by simpa [(setCell_shape hrows _ _ _).1],
              fun row hrow => (setCell_shape hrows _ t.cursor_y _).2 row hrow, hw, hh⟩
          · exact ⟨hlen, hrows, hw, hh⟩
        · exact write_printable_shape ⟨hlen, hrows, hw, hh⟩ c

theorem write_text_shape {t : Terminal} (h : GridInv t) (s : String) :
    GridInv (t.write_text s) := by
  unfold Terminal.write_text
  generalize s.toList = l
  induction l generalizing t with
  | nil => exact h
  | cons hd tl ih => exact ih (write_char_shape h hd)

theorem clear_shape {t : Terminal} (h : GridInv t) : GridInv t.clear := by
  obtain ⟨hlen, hrows, hw, hh⟩ := h
  refine ⟨by simpa [Terminal.clear], ?_, hw, hh⟩
  intro row hrow
  simp only [Terminal.clear, List.mem_map] at hrow
  obtain ⟨r, hr, rfl⟩ := hrow
  simpa using hrows r hr

theorem rowResize_length (row : List TerminalCell) (n : Nat) :
    (rowResize row n).length = n := by
  unfold rowResize
  split
  · simp; omega
  · simp; omega

theorem resize_shape {t : Terminal} (h : GridInv t) (nw nh : Nat) :
    GridInv (t.resize nw nh) := by
  obtain ⟨hlen, hrows, hw, hh⟩ := h
  unfold Terminal.resize
  split
  · exact ⟨hlen, hrows, hw, hh⟩
  · next hzero =>
    split
    · have hnw : 1 ≤ nw := by omega
      have hnh : 1 ≤ nh := by omega
      have hb1len : (if nw ≠ t.width then t.buffer.map (fun row => rowResize row nw)
          else t.buffer).length = t.buffer.length := by
        split <;> simp
      have hb1rows : ∀ row ∈ (if nw ≠ t.width then
          t.buffer.map (fun row => rowResize row nw) else t.buffer), row.length = nw := by
        split
        · intro row hrow
          simp only [List.mem_map] at hrow
          obtain ⟨r, _, rfl⟩ := hrow
          exact rowResize_length r nw
        · next hne =>
          intro row hrow
          rw [hrows row hrow]
          omega
      refine ⟨?_, ?_, hnw, hnh⟩
      · simp only []
        split
        · simp only [List.length_append, List.length_replicate, hb1len]
          omega
        · split
          · simp only [List.length_take, hb1len]
            omega
          · simp only [hb1len]
            omega
      · simp only []
        split
        · intro row hrow
          rcases List.mem_append.1 hrow with h1 | h1
          · exact hb1rows _ h1
          · rw [List.eq_of_mem_replicate h1]
            exact mkRow_length nw
        · split
          · intro row hrow
            exact hb1rows _ (List.mem_of_mem_take hrow)
          · exact hb1rows
    · exact ⟨hlen, hrows, hw, hh⟩

theorem set_cell_at_shape {t : Terminal} (h : GridInv t) (x y : Nat)
    (c : TerminalCell) : GridInv (t.set_cell_at x y c).1 := by
  obtain ⟨hlen, hrows, hw, hh⟩ := h
  unfold Terminal.set_cell_at
  split
  · next row hrow =>
    split
    · refine ⟨by simpa, ?_, hw, hh⟩
      intro r hr
      rcases List.mem_or_eq_of_mem_set hr with h1 | h1
      · exact hrows _ h1
      · rw [h1, List.length_set]
        exact hrows row (List.getElem?_mem hrow)
    · exact ⟨hlen, hrows, hw, hh⟩
  · exact ⟨hlen, hrows, hw, hh⟩

theorem with_size_shape {w h : Nat} (hw : 1 ≤ w) (hh : 1 ≤ h) :
    GridInv (Terminal.with_size w h) := by
  refine ⟨?_, ?_, hw, hh⟩
  · simp [Terminal.with_size, mkBuffer_eq_replicate]
  · intro row hrow
    simp only [Terminal.with_size, mkBuffer_eq_replicate, List.mem_replicate] at hrow
    rw [hrow.2]
    exact mkRow_length w

theorem applyOp_shape {t : Terminal} (h : GridInv t) (op : TermOp) :
    GridInv (applyOp t op) := by
  cases op with
  | writeChar c => exact write_char_shape h c
  | writeText s => exact write_text_shape h s
  | clear => exact clear_shape h
  | resize w h2 => exact resize_shape h w h2
  | setCellAt x y c => exact set_cell_at_shape h x y c
  | scroll => exact scroll_up_shape h

theorem applyOps_shape {t : Terminal} (h : GridInv t) (ops : List TermOp) :
    GridInv (applyOps t ops) := by
  unfold applyOps
  induction ops generalizing t with
  | nil => exact h
  | cons hd tl ih => exact ih (applyOp_shape h hd)

/-! ## Scrollback history lemmas -/

theorem scroll_up_buffer_ne_nil (t : Terminal) : t.scroll_up.buffer ≠ [] := by
  simp [Terminal.scroll_up]

theorem scroll_up_history_length {t : Terminal} (h : t.buffer ≠ []) :
    t.scroll_up.history.length = t.history.length + 1 := by
  unfold Terminal.scroll_up
  cases hb : t.buffer.head? with
  | none => exact absurd (List.head?_eq_none_iff.1 hb) h
  | some r => simp

theorem iterate_scroll_up_history (n : Nat) :
    ∀ t : Terminal, t.buffer ≠ [] →
      (Nat.iterate Terminal.scroll_up n t).history.length = t.history.length + n ∧
      (Nat.iterate Terminal.scroll_up n t).buffer ≠ [] := by
  induction n with
  | zero => intro t h; exact ⟨rfl, h⟩
  | succ n ih =>
    intro t h
    rw [Function.iterate_succ_apply]
    obtain ⟨h1, h2⟩ := ih t.scroll_up (scroll_up_buffer_ne_nil t)
    refine ⟨?_, h2⟩
    rw [h1, scroll_up_history_length h]
    omega

theorem with_size_buffer_ne_nil {w h : Nat} (hh : 1 ≤ h) :
    (Terminal.with_size w h).buffer ≠ [] := by
  simp only [Terminal.with_size, mkBuffer_eq_replicate, ne_eq,
    List.replicate_eq_nil_iff]
  omega

theorem with_size_history (w h : Nat) : (Terminal.with_size w h).history = [] := rfl

/-! ## Bounds-checked cell access lemmas -/

theorem getElem_some_lt {α : Type} {l : List α} {i : Nat} {a : α}
    (h : l[i]? = some a) : i < l.length := by
  by_contra hc
  rw [List.getElem?_eq_none (by omega)] at h
  simp at h

theorem get_cell_at_isSome_iff {t : Terminal} (hinv : GridInv t) (x y : Nat) :
    (t.get_cell_at x y).isSome ↔ (x < t.width ∧ y < t.height) := by
  obtain ⟨hlen, hrows, _, _⟩ := hinv
  unfold Terminal.get_cell_at
  cases hy : t.buffer[y]? with
  | none =>
    have hyy : t.height ≤ y := hlen ▸ List.getElem?_eq_none_iff.1 hy
    constructor
    · intro hs; simp at hs
    · intro hxy; exact absurd hxy.2 (by omega)
  | some row =>
    have hylt : y < t.buffer.length := getElem_some_lt hy
    have hrw : row.length = t.width := hrows _ (List.getElem?_mem hy)
    show (row[x]?).isSome ↔ _
    constructor
    · intro hs
      cases hx : row[x]? with
      | none => rw [hx] at hs; simp at hs
      | some cell =>
        have := getElem_some_lt hx
        exact ⟨by omega, by omega⟩
    · rintro ⟨hxw, hyh⟩
      rw [List.getElem?_eq_getElem (by omega)]
      simp

theorem set_cell_at_true_iff {t : Terminal} (hinv : GridInv t) (x y : Nat)
    (c : TerminalCell) :
    (t.set_cell_at x y c).2 = true ↔ (x < t.width ∧ y < t.height) := by
  obtain ⟨hlen, hrows, _, _⟩ := hinv
  unfold Terminal.set_cell_at
  cases hy : t.buffer[y]? with
  | none =>
    have hyy : t.height ≤ y := hlen ▸ List.getElem?_eq_none_iff.1 hy
    constructor
    · intro hs; simp at hs
    · intro hxy; exact absurd hxy.2 (by omega)
  | some row =>
    have hylt : y < t.buffer.length := getElem_some_lt hy
    have hrw : row.length = t.width := hrows _ (List.getElem?_mem hy)
    dsimp only
    cases hx : row[x]? with
    | none =>
      have hxx : row.length ≤ x := List.getElem?_eq_none_iff.1 hx
      constructor
      · intro hs; simp at hs
      · intro hxy; exact absurd hxy.1 (by omega)
    | some cell =>
      have hxlt := getElem_some_lt hx
      constructor
      · intro _; exact ⟨by omega, by omega⟩
      · intro _; rfl

theorem set_cell_at_stores {t : Terminal} (hinv : GridInv t) {x y : Nat}
    (c : TerminalCell) (hxw : x < t.width) (hyh : y < t.height) :
    (t.set_cell_at x y c).1.get_cell_at x y = some c := by
  obtain ⟨hlen, hrows, _, _⟩ := hinv
  unfold Terminal.set_cell_at
  cases hy : t.buffer[y]? with
  | none =>
    have hyy : t.height ≤ y := hlen ▸ List.getElem?_eq_none_iff.1 hy
    omega
  | some row =>
    have hylt : y < t.buffer.length := getElem_some_lt hy
    have hrw : row.length = t.width := hrows _ (List.getElem?_mem hy)
    dsimp only
    cases hx : row[x]? with
    | none =>
      have hxx : row.length ≤ x := List.getElem?_eq_none_iff.1 hx
      omega
    | some cell =>
      have hxlt : x < row.length := getElem_some_lt hx
      show Terminal.get_cell_at _ x y = some c
      unfold Terminal.get_cell_at
      show ((t.buffer.set y (row.set x c))[y]?).bind _ = some c
      rw [List.getElem?_set_self hylt]
      show (row.set x c)[x]? = some c
      exact List.getElem?_set_self hxlt

theorem set_cell_at_false_unchanged {t : Terminal} {x y : Nat}
    {c : TerminalCell} :
    (t.set_cell_at x y c).2 = false → (t.set_cell_at x y c).1 = t := by
  unfold Terminal.set_cell_at
  cases hy : t.buffer[y]? with
  | none => intro _; rfl
  | some row =>
    dsimp only
    cases hx : row[x]? with
    | none => intro _; rfl
    | some cell => intro h; simp at h

theorem setCell_get {buf : List (List TerminalCell)} {w : Nat}
    (hrows : ∀ row ∈ buf, row.length = w) {x y : Nat}
    (hy : y < buf.length) (hx : x < w) (c : TerminalCell) :
    ((setCell buf x y c)[y]?).bind (fun row => row[x]?) = some c := by
  unfold setCell
  rw [List.getElem?_set_self hy]
  show ((buf.getD y []).set x c)[x]? = some c
  have hd : buf.getD y [] = buf[y] := by
    simp [List.getD_eq_getElem?_getD, List.getElem?_eq_getElem hy]
  apply List.getElem?_set_self
  rw [hd, hrows _ (List.getElem_mem hy)]
  exact hx

end RT

namespace Ansi

/-! ## Cell-update lemma for the ANSI engine -/

theorem get_cell_updateCell {g : List (List Cell)} {x y : Nat}
    (f : Cell → Cell) {cell : Cell}
    (h : (g[y]?).bind (fun row => row[x]?) = some cell) :
    ((updateCell g x y f)[y]?).bind (fun row => row[x]?) = some (f cell) := by
  cases hy : g[y]? with
  | none => rw [hy] at h; simp at h
  | some row =>
    rw [hy] at h
    have hx : row[x]? = some cell := h
    unfold updateCell
    rw [hy]
    dsimp only
    rw [hx]
    have hylt := RT.getElem_some_lt hy
    have hxlt := RT.getElem_some_lt hx
    rw [List.getElem?_set_self hylt]
    show (row.set x (f cell))[x]? = some (f cell)
    exact List.getElem?_set_self hxlt

end Ansi

/-! ## C2: fresh terminal shape -/

/-- C2: for all w ≥ 1 and h ≥ 1, `Terminal::with_size(w, h)` yields a buffer
of exactly h rows of exactly w default-initialized cells with the cursor at
(0, 0), and `Terminal::new()` is `with_size 80 24`. -/
theorem C2_with_size_fresh (w h : Nat) (hw : 1 ≤ w) (hh : 1 ≤ h) :
    (RT.Terminal.with_size w h).buffer.length = h ∧
    (∀ row ∈ (RT.Terminal.with_size w h).buffer,
      row.length = w ∧ ∀ cell ∈ row, cell = RT.TerminalCell.default) ∧
    (RT.Terminal.with_size w h).cursor_x = 0 ∧
    (RT.Terminal.with_size w h).cursor_y = 0 ∧
    RT.Terminal.new = RT.Terminal.with_size 80 24 := by
  refine ⟨?_, ?_, rfl, rfl, rfl⟩
  · simp [RT.Terminal.with_size, RT.mkBuffer_eq_replicate]
  · intro row hrow
    simp only [RT.Terminal.with_size, RT.mkBuffer_eq_replicate,
      List.mem_replicate] at hrow
    rw [hrow.2, RT.mkRow_eq_replicate]
    constructor
    · simp
    · intro cell hcell
      exact (List.eq_of_mem_replicate hcell)

/-- Witness for C2 at w = 2, h = 3. -/
theorem C2_with_size_fresh_witness :
    (RT.Terminal.with_size 2 3).buffer.length = 3 ∧
    (∀ row ∈ (RT.Terminal.with_size 2 3).buffer,
      row.length = 2 ∧ ∀ cell ∈ row, cell = RT.TerminalCell.default) ∧
    (RT.Terminal.with_size 2 3).cursor_x = 0 ∧
    (RT.Terminal.with_size 2 3).cursor_y = 0 ∧
    RT.Terminal.new = RT.Terminal.with_size 80 24 :=
  C2_with_size_fresh 2 3 (by decide) (by decide)

/-! ## C1: grid-shape invariant under all public operations -/

/-- C1: starting from `with_size w h` with w ≥ 1 and h ≥ 1, after any
sequence of public operations (`write_char`, `write_text`, `clear`,
`resize`, `set_cell_at`, scrolling) the buffer has exactly `height` rows and
every row has exactly `width` cells, for the current dimensions. -/
theorem C1_grid_shape_invariant (w h : Nat) (hw : 1 ≤ w) (hh : 1 ≤ h)
    (ops : List RT.TermOp) :
    (RT.applyOps (RT.Terminal.with_size w h) ops).buffer.length =
      (RT.applyOps (RT.Terminal.with_size w h) ops).height ∧
    ∀ row ∈ (RT.applyOps (RT.Terminal.with_size w h) ops).buffer,
      row.length = (RT.applyOps (RT.Terminal.with_size w h) ops).width := by
  obtain ⟨h1, h2, _, _⟩ := RT.applyOps_shape (RT.with_size_shape hw hh) ops
  exact ⟨h1, h2⟩

/-- Witness for C1: a concrete operation sequence exercising writing, tab,
newline-driven scrolling, clear, resize and direct cell writes. -/
theorem C1_grid_shape_invariant_witness :
    (RT.applyOps (RT.Terminal.with_size 2 2)
        [RT.TermOp.writeChar 'A', RT.TermOp.writeChar '\t',
         RT.TermOp.writeChar '\n', RT.TermOp.writeChar '\n',
         RT.TermOp.setCellAt 1 1 RT.TerminalCell.default,
         RT.TermOp.scroll, RT.TermOp.resize 3 1, RT.TermOp.clear]).buffer.length =
      (RT.applyOps (RT.Terminal.with_size 2 2)
        [RT.TermOp.writeChar 'A', RT.TermOp.writeChar '\t',
         RT.TermOp.writeChar '\n', RT.TermOp.writeChar '\n',
         RT.TermOp.setCellAt 1 1 RT.TerminalCell.default,
         RT.TermOp.scroll, RT.TermOp.resize 3 1, RT.TermOp.clear]).height ∧
    ∀ row ∈ (RT.applyOps (RT.Terminal.with_size 2 2)
        [RT.TermOp.writeChar 'A', RT.TermOp.writeChar '\t',
         RT.TermOp.writeChar '\n', RT.TermOp.writeChar '\n',
         RT.TermOp.setCellAt 1 1 RT.TerminalCell.default,
         RT.TermOp.scroll, RT.TermOp.resize 3 1, RT.TermOp.clear]).buffer,
      row.length = (RT.applyOps (RT.Terminal.with_size 2 2)
        [RT.TermOp.writeChar 'A', RT.TermOp.writeChar '\t',
         RT.TermOp.writeChar '\n', RT.TermOp.writeChar '\n',
         RT.TermOp.setCellAt 1 1 RT.TerminalCell.default,
         RT.TermOp.scroll, RT.TermOp.resize 3 1, RT.TermOp.clear]).width :=
  C1_grid_shape_invariant 2 2 (by decide) (by decide) _

/-! ## C3: scrollback bound (corrected) -/

/-- C3 counterexample: 1001 full-screen scroll events on a fresh 1×1
terminal leave 1001 rows in history.  The claimed bound — history length
equals min(N, M) and never exceeds M — fails for the code's capacity
constant `MAX_HISTORY_LINES = 1000`, because `scroll_up` pushes rows
unconditionally and trimming happens only inside `optimize_memory`. -/
theorem C3_counterexample :
    (Nat.iterate RT.Terminal.scroll_up 1001 (RT.Terminal.with_size 1 1)).history.length
      = 1001 ∧
    (Nat.iterate RT.Terminal.scroll_up 1001 (RT.Terminal.with_size 1 1)).history.length
      ≠ min 1001 RT.MAX_HISTORY_LINES := by
  have hne : (RT.Terminal.with_size 1 1).buffer ≠ [] :=
    RT.with_size_buffer_ne_nil (by decide)
  have h := (RT.iterate_scroll_up_history 1001 _ hne).1
  rw [RT.with_size_history] at h
  simp only [List.length_nil, Nat.zero_add] at h
  refine ⟨h, ?_⟩
  rw [h]
  unfold RT.MAX_HISTORY_LINES
  omega

/-- C3 amended: each full-screen scroll appends one history row without any
bound, so after N scrolls the history length is exactly N; the capacity
`MAX_HISTORY_LINES = 1000` with oldest-first eviction is enforced only when
`optimize_memory` runs (triggered from `update` under memory pressure), after
which the history holds the most recent min(N, 1000) rows. -/
theorem C3_amended_scrollback (w h N : Nat) (hh : 1 ≤ h) :
    (Nat.iterate RT.Terminal.scroll_up N (RT.Terminal.with_size w h)).history.length
      = N ∧
    (Nat.iterate RT.Terminal.scroll_up N
        (RT.Terminal.with_size w h)).optimize_memory.history =
      (Nat.iterate RT.Terminal.scroll_up N
        (RT.Terminal.with_size w h)).history.drop (N - RT.MAX_HISTORY_LINES) ∧
    (Nat.iterate RT.Terminal.scroll_up N
        (RT.Terminal.with_size w h)).optimize_memory.history.length =
      min N RT.MAX_HISTORY_LINES := by
  have hne : (RT.Terminal.with_size w h).buffer ≠ [] :=
    RT.with_size_buffer_ne_nil hh
  have hlen := (RT.iterate_scroll_up_history N _ hne).1
  rw [RT.with_size_history] at hlen
  simp only [List.length_nil, Nat.zero_add] at hlen
  refine ⟨hlen, ?_, ?_⟩
  · unfold RT.Terminal.optimize_memory
    split
    · rw [hlen]
    · next hle =>
      rw [hlen] at hle
      have h0 : N - RT.MAX_HISTORY_LINES = 0 := by omega
      rw [h0, List.drop_zero]
  · unfold RT.Terminal.optimize_memory
    split
    · next hlt =>
      rw [hlen] at hlt
      simp only [List.length_drop, hlen]
      omega
    · next hle =>
      rw [hlen] at hle
      rw [hlen]
      omega

/-- Witness for C3 (amended) at w = 1, h = 1, N = 2. -/
theorem C3_amended_scrollback_witness :
    (Nat.iterate RT.Terminal.scroll_up 2 (RT.Terminal.with_size 1 1)).history.length
      = 2 ∧
    (Nat.iterate RT.Terminal.scroll_up 2
        (RT.Terminal.with_size 1 1)).optimize_memory.history =
      (Nat.iterate RT.Terminal.scroll_up 2
        (RT.Terminal.with_size 1 1)).history.drop (2 - RT.MAX_HISTORY_LINES) ∧
    (Nat.iterate RT.Terminal.scroll_up 2
        (RT.Terminal.with_size 1 1)).optimize_memory.history.length =
      min 2 RT.MAX_HISTORY_LINES :=
  C3_amended_scrollback 1 1 2 (by decide)

/-! ## C4: bounds-checked cell access -/

/-- C4: on any terminal satisfying the grid invariant, `get_cell_at x y`
returns a cell exactly when x < width and y < height (absent otherwise,
never aborting — it is total into `Option`); `set_cell_at x y cell` returns
`true` and stores the cell exactly when (x, y) is in bounds, and returns
`false` with the state unchanged otherwise. -/
theorem C4_cell_access (t : RT.Terminal) (x y : Nat) (c : RT.TerminalCell)
    (hinv : RT.GridInv t) :
    ((t.get_cell_at x y).isSome ↔ (x < t.width ∧ y < t.height)) ∧
    ((t.set_cell_at x y c).2 = true ↔ (x < t.width ∧ y < t.height)) ∧
    ((t.set_cell_at x y c).2 = true →
      (t.set_cell_at x y c).1.get_cell_at x y = some c) ∧
    ((t.set_cell_at x y c).2 = false → (t.set_cell_at x y c).1 = t) := by
  refine ⟨RT.get_cell_at_isSome_iff hinv x y, RT.set_cell_at_true_iff hinv x y c,
    ?_, RT.set_cell_at_false_unchanged⟩
  intro htrue
  obtain ⟨hxw, hyh⟩ := (RT.set_cell_at_true_iff hinv x y c).1 htrue
  exact RT.set_cell_at_stores hinv c hxw hyh

/-! ## C5: backspace (corrected) -/

/-- C5 counterexample: the claim says processing backspace leaves every cell
of the grid unchanged, but `Terminal::write_char('\x08')` also resets the
cell at the new cursor position.  Concretely: write 'A' on a fresh 2×1
terminal, then backspace — cell (0,0) changes from the 'A' cell back to the
default cell. -/
theorem C5_counterexample :
    ((RT.Terminal.with_size 2 1).write_char 'A').get_cell_at 0 0 ≠
      ((((RT.Terminal.with_size 2 1).write_char 'A').write_char '\x08')).get_cell_at 0 0 ∧
    ((((RT.Terminal.with_size 2 1).write_char 'A').write_char '\x08')).get_cell_at 0 0 =
      some RT.TerminalCell.default ∧
    ((((RT.Terminal.with_size 2 1).write_char 'A').write_char '\x08')).cursor_x = 0 := by
  decide

/-- C5 amended: processing 0x08 decrements cursor.x saturating at 0 and
leaves cursor.y, the dimensions and the history unchanged; in
`Terminal::write_char` (src/terminal.rs) the cell at the new cursor position
is additionally reset to the default cell when cursor.x was positive (all
other cells unchanged), while the `Perform::execute` path (src/ansi.rs)
leaves the grid entirely unchanged. -/
theorem C5_amended_backspace :
    (∀ t : RT.Terminal,
      (t.write_char '\x08').cursor_x = t.cursor_x - 1 ∧
      (t.write_char '\x08').cursor_y = t.cursor_y ∧
      (t.write_char '\x08').width = t.width ∧
      (t.write_char '\x08').height = t.height ∧
      (t.write_char '\x08').history = t.history ∧
      (t.write_char '\x08').buffer =
        (if 0 < t.cursor_x then
          RT.setCell t.buffer (t.cursor_x - 1) t.cursor_y RT.TerminalCell.default
        else t.buffer)) ∧
    (∀ a : Ansi.Terminal,
      (a.execute 0x08).cursor.x = a.cursor.x - 1 ∧
      (a.execute 0x08).cursor.y = a.cursor.y ∧
      (a.execute 0x08).grid = a.grid ∧
      (a.execute 0x08).history = a.history) := by
  constructor
  · intro t
    unfold RT.Terminal.write_char
    rw [if_neg (by decide), if_neg (by decide), if_neg (by decide), if_pos rfl]
    by_cases h0 : 0 < t.cursor_x
    · rw [if_pos h0, if_pos h0]
      exact ⟨rfl, rfl, rfl, rfl, rfl, rfl⟩
    · rw [if_neg h0, if_neg h0]
      exact ⟨by omega, rfl, rfl, rfl, rfl, rfl⟩
  · intro a
    unfold Ansi.Terminal.execute
    rw [if_neg (by decide), if_pos rfl]
    by_cases h0 : 0 < a.cursor.x
    · rw [if_pos h0]
      exact ⟨rfl, rfl, rfl, rfl⟩
    · rw [if_neg h0]
      exact ⟨by omega, rfl, rfl, rfl⟩

/-! ## C6: the PTY input-write path is a no-op (code bug) -/

/-- C6: the claim (and the spec) require the writer task to actually write
drained chunks to the PTY master; the code's input thread only logs them.
Evaluated at the queued chunk "ls\n" (bytes 108, 115, 10): the set of writes
performed is empty — and it is empty for every queue contents. -/
theorem C6_input_write_path_noop :
    Pty.inputThreadWrites [[108, 115, 10]] = [] ∧
    ∀ queued : List (List Nat), Pty.inputThreadWrites queued = [] := by
  have haux : ∀ (l : List (List Nat)) (init : List (List Nat)),
      l.foldl (fun w _ => w) init = init := by
    intro l
    induction l with
    | nil => intro init; rfl
    | cons hd tl ih => intro init; exact ih init
  exact ⟨rfl, fun q => haux q []⟩

/-! ## C7: cleanup of dead sessions (code bug) -/

/-- C7: the claim (and the spec) say `cleanup_dead_sessions` removes the
sessions whose child has exited.  Because `is_alive` is stubbed to `true`,
a registry holding one session whose child has exited is left unchanged:
the dead session stays registered. -/
theorem C7_cleanup_keeps_exited_session :
    Pty.cleanup_dead_sessions [{ id := 0, childExited := true }] =
      [{ id := 0, childExited := true }] ∧
    ({ id := 0, childExited := true } : Pty.Session).childExited = true ∧
    Pty.Session.is_alive { id := 0, childExited := true } = true :=
  ⟨rfl, rfl, rfl⟩

/-! ## C8: DECSTBM set top and bottom margins -/

/-- C8: on a height-24 terminal, CSI "2;5r" sets scroll_top = 1 and
scroll_bottom = 4 (0-based); for any parameters, a requested region with
top ≥ bottom resets the region to the full screen; and afterwards the cursor
is at column 0, row `scroll_top` when origin mode is on and row 0
otherwise. -/
theorem C8_decstbm_margins (t : Ansi.Terminal) (params : List (List Nat))
    (h24 : t.height = 24) :
    ((t.csi_dispatch_r [[2], [5]]).state.scroll_top = 1 ∧
     (t.csi_dispatch_r [[2], [5]]).state.scroll_bottom = 4) ∧
    (Ansi.paramAt params 1 t.height ≤ Ansi.paramAt params 0 1 →
      (t.csi_dispatch_r params).state.scroll_top = 0 ∧
      (t.csi_dispatch_r params).state.scroll_bottom = t.height - 1) ∧
    ((t.csi_dispatch_r params).cursor.x = 0 ∧
     (t.csi_dispatch_r params).cursor.y =
       (if t.state.origin_mode then (t.csi_dispatch_r params).state.scroll_top
        else 0)) := by
  refine ⟨?_, ?_, ?_⟩
  · simp only [Ansi.Terminal.csi_dispatch_r, Ansi.paramAt, h24]
    decide
  · intro hle
    simp only [Ansi.Terminal.csi_dispatch_r]
    constructor
    · split
      · rfl
      · exfalso; omega
    · split
      · rfl
      · exfalso; omega
  · exact ⟨rfl, rfl⟩

/-- Witness for C8 on a concrete height-24 state with parameters requesting
top = 5, bottom = 2 (an invalid region). -/
theorem C8_decstbm_margins_witness :
    ((({ Ansi.sampleTerminal with height := 24 }).csi_dispatch_r
        [[2], [5]]).state.scroll_top = 1 ∧
     (({ Ansi.sampleTerminal with height := 24 }).csi_dispatch_r
        [[2], [5]]).state.scroll_bottom = 4) ∧
    (Ansi.paramAt [[5], [2]] 1 ({ Ansi.sampleTerminal with height := 24 } :
        Ansi.Terminal).height ≤ Ansi.paramAt [[5], [2]] 0 1 →
      (({ Ansi.sampleTerminal with height := 24 }).csi_dispatch_r
        [[5], [2]]).state.scroll_top = 0 ∧
      (({ Ansi.sampleTerminal with height := 24 }).csi_dispatch_r
        [[5], [2]]).state.scroll_bottom =
          ({ Ansi.sampleTerminal with height := 24 } : Ansi.Terminal).height - 1) ∧
    ((({ Ansi.sampleTerminal with height := 24 }).csi_dispatch_r
        [[5], [2]]).cursor.x = 0 ∧
     (({ Ansi.sampleTerminal with height := 24 }).csi_dispatch_r
        [[5], [2]]).cursor.y =
       (if ({ Ansi.sampleTerminal with height := 24 } :
            Ansi.Terminal).state.origin_mode then
          (({ Ansi.sampleTerminal with height := 24 }).csi_dispatch_r
            [[5], [2]]).state.scroll_top
        else 0)) :=
  C8_decstbm_margins { Ansi.sampleTerminal with height := 24 } [[5], [2]] rfl

/-! ## C9: reverse video resolved at write time (corrected) -/

/-- C9 counterexample: the claim says no per-cell reverse flag is stored,
but `Perform::print` stores `cell.reverse = attrs.reverse`.  Printing 'A'
with the reverse attribute active leaves a cell whose `reverse` field is
`true`. -/
theorem C9_counterexample :
    ((({ Ansi.sampleTerminal with
        current_attrs := { Ansi.Attrs.default with reverse := true } }).print
          'A').get_cell 0 0).map (fun (cell : Ansi.Cell) => cell.reverse) =
      some true := by
  decide

/-- C9 amended: printing a character does swap foreground and background at
write time when the reverse attribute is active (and stores them unswapped
otherwise) — but the reverse attribute is additionally stored in the cell's
own `reverse` flag, along with the other current attribute flags. -/
theorem C9_amended_reverse_swap (t : Ansi.Terminal) (c : Char)
    (hc : c ≠ '\x00')
    (hfit : t.cursor.x + Ansi.charWidth c ≤ t.width)
    (hcell : (t.get_cell t.cursor.x t.cursor.y).isSome) :
    (t.print c).get_cell t.cursor.x t.cursor.y = some
      { character := c
        fg_color := if t.current_attrs.reverse then t.current_bg else t.current_fg
        bg_color := if t.current_attrs.reverse then t.current_fg else t.current_bg
        bold := t.current_attrs.bold
        italic := t.current_attrs.italic
        underline := t.current_attrs.underline
        strikethrough := t.current_attrs.strikethrough
        reverse := t.current_attrs.reverse
        blink := t.current_attrs.blink
        dim := t.current_attrs.dim } ∧
    (t.print c).cursor.x = t.cursor.x + Ansi.charWidth c := by
  obtain ⟨cell, hc0⟩ := Option.isSome_iff_exists.1 hcell
  have hc0' : (t.grid[t.cursor.y]?).bind (fun row => row[t.cursor.x]?) =
      some cell := hc0
  unfold Ansi.Terminal.print
  rw [if_neg hc]
  dsimp only
  rw [if_neg (Nat.not_lt.2 hfit)]
  refine ⟨?_, rfl⟩
  show (Ansi.updateCell t.grid t.cursor.x t.cursor.y
      _)[t.cursor.y]?.bind (fun row => row[t.cursor.x]?) = _
  exact Ansi.get_cell_updateCell _ hc0'

/-- Witness for C9 (amended): printing 'A' with reverse active and distinct
current colors on the sample terminal. -/
theorem C9_amended_reverse_swap_witness :
    (({ Ansi.sampleTerminal with
        current_fg := ⟨10, 20, 30, 255⟩
        current_bg := ⟨40, 50, 60, 255⟩
        current_attrs := { Ansi.Attrs.default with reverse := true } } :
          Ansi.Terminal).print 'A').get_cell
      ({ Ansi.sampleTerminal with
        current_fg := ⟨10, 20, 30, 255⟩
        current_bg := ⟨40, 50, 60, 255⟩
        current_attrs := { Ansi.Attrs.default with reverse := true } } :
          Ansi.Terminal).cursor.x
      ({ Ansi.sampleTerminal with
        current_fg := ⟨10, 20, 30, 255⟩
        current_bg := ⟨40, 50, 60, 255⟩
        current_attrs := { Ansi.Attrs.default with reverse := true } } :
          Ansi.Terminal).cursor.y = some
      { character := 'A'
        fg_color := if ({ Ansi.sampleTerminal with
            current_fg := ⟨10, 20, 30, 255⟩
            current_bg := ⟨40, 50, 60, 255⟩
            current_attrs := { Ansi.Attrs.default with reverse := true } } :
              Ansi.Terminal).current_attrs.reverse then ⟨40, 50, 60, 255⟩
          else ⟨10, 20, 30, 255⟩
        bg_color := if ({ Ansi.sampleTerminal with
            current_fg := ⟨10, 20, 30, 255⟩
            current_bg := ⟨40, 50, 60, 255⟩
            current_attrs := { Ansi.Attrs.default with reverse := true } } :
              Ansi.Terminal).current_attrs.reverse then ⟨10, 20, 30, 255⟩
          else ⟨40, 50, 60, 255⟩
        bold := false
        italic := false
        underline := false
        strikethrough := false
        reverse := true
        blink := false
        dim := false } ∧
    (({ Ansi.sampleTerminal with
        current_fg := ⟨10, 20, 30, 255⟩
        current_bg := ⟨40, 50, 60, 255⟩
        current_attrs := { Ansi.Attrs.default with reverse := true } } :
          Ansi.Terminal).print 'A').cursor.x =
      ({ Ansi.sampleTerminal with
        current_fg := ⟨10, 20, 30, 255⟩
        current_bg := ⟨40, 50, 60, 255⟩
        current_attrs := { Ansi.Attrs.default with reverse := true } } :
          Ansi.Terminal).cursor.x + Ansi.charWidth 'A' :=
  C9_amended_reverse_swap _ 'A' (by decide) (by decide) (by decide)

/-! ## C10: per-character foreground colors -/

/-- C10: for a printable character written through `Terminal::write_char`
with the cursor in bounds (and no scroll triggered by wrapping), the stored
cell has exactly the foreground color determined by the character class —
blue (100,200,255,255) for the six operator characters, orange
(255,200,100,255) for ASCII digits, green (200,255,200,255) for ASCII
letters, default white otherwise — with the default background and style
flags; and `get_color_for_char` is independent of the terminal state. -/
theorem C10_char_color (t : RT.Terminal) (c : Char)
    (hinv : RT.GridInv t)
    (hn : c ≠ '\n') (hr : c ≠ '\r') (htab : c ≠ '\t') (hbs : c ≠ '\x08')
    (hx : t.cursor_x < t.width) (hy : t.cursor_y < t.height)
    (hnoscroll : t.cursor_x + 1 < t.width ∨ t.cursor_y + 1 < t.height) :
    (t.write_char c).get_cell_at t.cursor_x t.cursor_y = some
      { character := c
        foreground_color :=
          if c = '=' ∨ c = '!' ∨ c = '&' ∨ c = '|' ∨ c = '<' ∨ c = '>' then
            ⟨100, 200, 255, 255⟩
          else if '0' ≤ c ∧ c ≤ '9' then ⟨255, 200, 100, 255⟩
          else if ('A' ≤ c ∧ c ≤ 'Z') ∨ ('a' ≤ c ∧ c ≤ 'z') then
            ⟨200, 255, 200, 255⟩
          else ⟨255, 255, 255, 255⟩
        background_color := ⟨0, 0, 0, 255⟩
        bold := false
        italic := false
        underline := false } ∧
    (∀ u v : RT.Terminal,
      RT.Terminal.get_color_for_char u c = RT.Terminal.get_color_for_char v c) := by
  obtain ⟨hlen, hrows, _, _⟩ := hinv
  refine ⟨?_, fun u v => rfl⟩
  unfold RT.Terminal.write_char
  rw [if_neg hn, if_neg hr, if_neg htab, if_neg hbs]
  unfold RT.Terminal.write_printable
  rw [if_pos ⟨hx, hy⟩]
  dsimp only
  split
  · split
    · exfalso; omega
    · show RT.Terminal.get_cell_at _ _ _ = _
      unfold RT.Terminal.get_cell_at
      exact RT.setCell_get hrows (by omega) hx _
  · show RT.Terminal.get_cell_at _ _ _ = _
    unfold RT.Terminal.get_cell_at
    exact RT.setCell_get hrows (by omega) hx _

/-- Witness for C10: writing '5' on a fresh 2×2 terminal. -/
theorem C10_char_color_witness :
    ((RT.Terminal.with_size 2 2).write_char '5').get_cell_at
      (RT.Terminal.with_size 2 2).cursor_x (RT.Terminal.with_size 2 2).cursor_y =
      some
      { character := '5'
        foreground_color :=
          if '5' = '=' ∨ '5' = '!' ∨ '5' = '&' ∨ '5' = '|' ∨ '5' = '<' ∨ '5' = '>' then
            ⟨100, 200, 255, 255⟩
          else if '0' ≤ '5' ∧ '5' ≤ '9' then ⟨255, 200, 100, 255⟩
          else if ('A' ≤ '5' ∧ '5' ≤ 'Z') ∨ ('a' ≤ '5' ∧ '5' ≤ 'z') then
            ⟨200, 255, 200, 255⟩
          else ⟨255, 255, 255, 255⟩
        background_color := ⟨0, 0, 0, 255⟩
        bold := false
        italic := false
        underline := false } ∧
    (∀ u v : RT.Terminal,
      RT.Terminal.get_color_for_char u '5' = RT.Terminal.get_color_for_char v '5') :=
  C10_char_color (RT.Terminal.with_size 2 2) '5' (by decide) (by decide)
    (by decide) (by decide) (by decide) (by decide) (by decide) (by decide)

/-- Witness for C4 on a concrete 2×2 terminal at (1, 1). -/
theorem C4_cell_access_witness :
    (((RT.Terminal.with_size 2 2).get_cell_at 1 1).isSome ↔
      (1 < (RT.Terminal.with_size 2 2).width ∧
       1 < (RT.Terminal.with_size 2 2).height)) ∧
    (((RT.Terminal.with_size 2 2).set_cell_at 1 1 RT.TerminalCell.default).2 = true ↔
      (1 < (RT.Terminal.with_size 2 2).width ∧
       1 < (RT.Terminal.with_size 2 2).height)) ∧
    (((RT.Terminal.with_size 2 2).set_cell_at 1 1 RT.TerminalCell.default).2 = true →
      ((RT.Terminal.with_size 2 2).set_cell_at 1 1
        RT.TerminalCell.default).1.get_cell_at 1 1 = some RT.TerminalCell.default) ∧
    (((RT.Terminal.with_size 2 2).set_cell_at 1 1 RT.TerminalCell.default).2 = false →
      ((RT.Terminal.with_size 2 2).set_cell_at 1 1 RT.TerminalCell.default).1 =
        RT.Terminal.with_size 2 2) :=
  C4_cell_access (RT.Terminal.with_size 2 2) 1 1 RT.TerminalCell.default (by decide)
